import Mathlib

/-!
Shallow embedding of the khorsyio core message bus
(`khorsyio/core/structs.py`, `khorsyio/core/handler.py`,
`khorsyio/core/bus.py`) together with proofs about the claims of the
natural-language specification.

Modelling conventions:
* Domain payloads (`msgspec.Struct` values) and serialized payload bytes
  are opaque to the bus; both are modelled as `String`.
* `time.time()` readings and `uuid4().hex[:16]` draws are environmental
  inputs; every operation that consumes them takes them as explicit
  `now` / `freshId` arguments.
* Python float durations/timeouts are modelled as rationals (`ℚ`).
* Python dicts used as maps with unique keys are modelled either as
  association lists (the waiter table, whose iteration matters) or as
  total functions with pointwise update (metrics counters).
* Python truthiness tests on strings/options (`trace_id or uuid…`,
  `if event_type:`, `response_type or …`, `data and …`) are modelled
  explicitly: an empty string and `None` are both falsy.
-/

namespace Khorsyio

/-- Opaque stand-in for a `msgspec.Struct` domain payload. -/
abbrev StructData := String

/-- Opaque stand-in for serialized payload bytes; `msgspec.json.encode`
carries the payload through opaquely. -/
def jsonEncode (d : StructData) : String := d

/-- Python string truthiness for `a or b` where `a` is an optional
string: `None` and `""` both fall through to `b`. -/
def strOr (a : Option String) (b : String) : String :=
  match a with
  | some s => if s = "" then b else s
  | none => b

/-- `Context` from `structs.py`: per-message metadata. -/
structure Context where
  trace_id : String
  timestamp : Nat
  source : String
  user_id : String
  extra : List (String × String)
deriving DecidableEq

/-- `Error` from `structs.py`. -/
structure Error where
  code : String
  message : String
  source : String
  trace_id : String
  details : List (String × String)
deriving DecidableEq

/-- `Envelope` from `structs.py`: the unit of transport. -/
structure Envelope where
  ctx : Context
  event_type : String
  payload : String
  error : Option Error
deriving DecidableEq

/-- `Envelope.create`: fresh envelope.  `trace_id or uuid4().hex[:16]`
is modelled by `strOr trace_id freshId`; `extra or {}` by `getD []`. -/
def Envelope.create (event_type : String) (data : StructData) (source : String)
    (trace_id : Option String) (user_id : String)
    (extra : Option (List (String × String))) (freshId : String) (now : Nat) : Envelope :=
  { ctx := { trace_id := strOr trace_id freshId, timestamp := now, source := source,
             user_id := user_id, extra := extra.getD [] },
    event_type := event_type, payload := jsonEncode data, error := none }

/-- `Envelope.trace_id` property. -/
def Envelope.trace_id (e : Envelope) : String := e.ctx.trace_id

/-- `Envelope.is_error` property. -/
def Envelope.is_error (e : Envelope) : Bool := e.error.isSome

/-- `Envelope.error_from`: error-derived envelope. -/
def Envelope.error_from (original : Envelope) (message : String) (code : String)
    (source : String) (details : Option (List (String × String))) (now : Nat) : Envelope :=
  { ctx := { trace_id := original.ctx.trace_id, timestamp := now, source := source,
             user_id := original.ctx.user_id, extra := [] },
    event_type := original.event_type ++ ".error",
    payload := original.payload,
    error := some { code := code, message := message, source := source,
                    trace_id := original.ctx.trace_id, details := details.getD [] } }

/-- `Envelope.forward`: forwarded envelope (handler success path). -/
def Envelope.forward (e : Envelope) (event_type : String) (data : StructData)
    (source : String) (freshId : String) (now : Nat) : Envelope :=
  Envelope.create event_type data source (some e.ctx.trace_id) e.ctx.user_id
    (some e.ctx.extra) freshId now

/-- Result of a handler's `process` coroutine: nothing, a domain payload
struct, or a full envelope. -/
inductive ProcResult
  | nothing
  | struct (d : StructData)
  | envl (e : Envelope)

/-- `Handler` from `handler.py`: registration data plus the `process`
operation (modelled as a pure function of the envelope; payload decoding
into `input_type` is part of the opaque payload abstraction). -/
structure Handler where
  name : String
  subscribes_to : String
  publishes : String
  timeout : ℚ
  execution_mode : String
  process : Envelope → ProcResult

/-- `Handler.handle` from `handler.py`: maps the `process` result to the
envelope (or nothing) that re-enters the bus. -/
def Handler.handle (h : Handler) (envelope : Envelope) (freshId : String) (now : Nat) :
    Option Envelope :=
  match h.process envelope with
  | ProcResult.nothing => none
  | ProcResult.envl r => some r
  | ProcResult.struct d =>
      if h.publishes ≠ "" then
        some (envelope.forward h.publishes d h.name freshId now)
      else none

/-- Rounding to two decimals, modelling Python `round(x, 2)` on the
rational abstraction of floats. -/
def round2 (x : ℚ) : ℚ := ((round (x * 100) : ℤ) : ℚ) / 100

/-- `Metrics` from `bus.py`: per-handler-name aggregation.  The Python
`defaultdict(int)` / `defaultdict(float)` maps are modelled as total
functions defaulting to zero; `last_error` (plain dict) as an
optional-valued function. -/
structure Metrics where
  processed : String → Nat
  errors : String → Nat
  total_ms : String → ℚ
  last_error : String → Option String

/-- The fresh `Metrics()` state. -/
def Metrics.empty : Metrics :=
  { processed := fun _ => 0, errors := fun _ => 0, total_ms := fun _ => 0,
    last_error := fun _ => none }

/-- `Metrics.record` from `bus.py`. -/
def Metrics.record (m : Metrics) (handler_name : String) (duration_ms : ℚ)
    (ok : Bool) (error : String) : Metrics :=
  let m1 : Metrics :=
    { m with
      processed := fun n => if n = handler_name then m.processed n + 1 else m.processed n,
      total_ms := fun n => if n = handler_name then m.total_ms n + duration_ms else m.total_ms n }
  if ok then m1
  else
    { m1 with
      errors := fun n => if n = handler_name then m1.errors n + 1 else m1.errors n,
      last_error := fun n => if n = handler_name then some error else m1.last_error n }

/-- `Metrics.avg_ms` from `bus.py`: `round(total/count, 2) if count else 0.0`. -/
def Metrics.avg_ms (m : Metrics) (handler_name : String) : ℚ :=
  let count := m.processed handler_name
  if count = 0 then 0 else round2 (m.total_ms handler_name / count)

/-- One call to `Metrics.record`, for reasoning about record sequences. -/
structure RecordCall where
  name : String
  duration : ℚ
  ok : Bool
  err : String

/-- Fold a sequence of `record` calls over a fresh `Metrics`. -/
def runMetrics (calls : List RecordCall) : Metrics :=
  calls.foldl (fun m c => m.record c.name c.duration c.ok c.err) Metrics.empty

/-- One entry of the bounded event log (the dict literal built in
`EventLog.record`). -/
structure LogEntry where
  ts : Nat
  event_type : String
  trace_id : String
  source : String
  handler : String
  duration_ms : ℚ
  ok : Bool
  error : String
deriving DecidableEq

/-- Appending to a `deque(maxlen=m)`: beyond capacity the oldest entries
are evicted from the left. -/
def pushBounded {α : Type _} (m : Nat) (b : List α) (x : α) : List α :=
  if m = 0 then []
  else if b.length < m then b ++ [x]
  else b.drop (b.length + 1 - m) ++ [x]

/-- `EventLog` from `bus.py`: a bounded buffer of dispatch records,
oldest first. -/
structure EventLog where
  max_size : Nat
  buffer : List LogEntry
deriving DecidableEq

/-- `EventLog(max_size)`: empty buffer. -/
def EventLog.new (max_size : Nat) : EventLog := { max_size := max_size, buffer := [] }

/-- `EventLog.record` from `bus.py`. -/
def EventLog.record (l : EventLog) (envelope : Envelope) (handler_name : String)
    (duration_ms : ℚ) (ok : Bool) (now : Nat) : EventLog :=
  { l with
    buffer := pushBounded l.max_size l.buffer
      { ts := now, event_type := envelope.event_type, trace_id := envelope.trace_id,
        source := envelope.ctx.source, handler := handler_name,
        duration_ms := duration_ms, ok := ok,
        error := match envelope.error with | some er => er.message | none => "" } }

/-- Python slice `items[-n:]`: the last `n` items — except that `n = 0`
yields the whole list (`items[-0:] == items[0:]`). -/
def lastN {α : Type _} (n : Nat) (xs : List α) : List α :=
  if n = 0 then xs else xs.drop (xs.length - n)

/-- The filtering part of `EventLog.recent`: `if event_type:` and
`if trace_id:` are Python truthiness tests, so `None` and `""` both
disable the corresponding filter. -/
def logFilter (event_type : Option String) (trace_id : Option String)
    (items : List LogEntry) : List LogEntry :=
  let items1 :=
    match event_type with
    | some s => if s = "" then items else items.filter (fun e => e.event_type = s)
    | none => items
  match trace_id with
  | some s => if s = "" then items1 else items1.filter (fun e => e.trace_id = s)
  | none => items1

/-- `EventLog.recent` from `bus.py`. -/
def EventLog.recent (l : EventLog) (n : Nat) (event_type : Option String)
    (trace_id : Option String) : List LogEntry :=
  lastN n (logFilter event_type trace_id l.buffer)

/-- One call to `EventLog.record`, for reasoning about record sequences. -/
structure LogCall where
  envelope : Envelope
  handler_name : String
  duration_ms : ℚ
  ok : Bool
  now : Nat

/-- Fold a sequence of `record` calls over a fresh `EventLog`. -/
def runEventLog (max_size : Nat) (calls : List LogCall) : EventLog :=
  calls.foldl (fun l c => l.record c.envelope c.handler_name c.duration_ms c.ok c.now)
    (EventLog.new max_size)

/-- State of an `asyncio.Future` in the waiter table: still pending, or
resolved (`set_result`) with an envelope. -/
inductive Waiter
  | pending
  | done (e : Envelope)
deriving DecidableEq

/-- The waiter-table key `f"{event_type}:{trace_id}"`. -/
def waiterKey (event_type : String) (tid : String) : String := event_type ++ ":" ++ tid

/-- Dict lookup on the waiter table. -/
def lookupW : List (String × Waiter) → String → Option Waiter
  | [], _ => none
  | p :: rest, k => if p.1 = k then some p.2 else lookupW rest k

/-- Dict assignment to an existing key (entries with other keys are
untouched). -/
def setW (ws : List (String × Waiter)) (k : String) (w : Waiter) :
    List (String × Waiter) :=
  ws.map (fun p => if p.1 = k then (k, w) else p)

/-- Dict assignment `ws[k] = w`: replace if present, append otherwise. -/
def insertW (ws : List (String × Waiter)) (k : String) (w : Waiter) :
    List (String × Waiter) :=
  if (lookupW ws k).isSome then setW ws k w else ws ++ [(k, w)]

/-- `ws.pop(k, None)`. -/
def removeW (ws : List (String × Waiter)) (k : String) : List (String × Waiter) :=
  ws.filter (fun p => p.1 ≠ k)

/-- `Bus._check_waiters`: if a pending waiter is registered under the
envelope's `(event_type, trace_id)` key, resolve it with the envelope and
report success. -/
def checkWaiters (ws : List (String × Waiter)) (e : Envelope) :
    Bool × List (String × Waiter) :=
  match lookupW ws (waiterKey e.event_type e.trace_id) with
  | some Waiter.pending => (true, setW ws (waiterKey e.event_type e.trace_id) (Waiter.done e))
  | _ => (false, ws)

/-- The observable behaviour of one awaited handler execution: whether it
raised, and how long it would take to finish.  (Real time is not part of
the state; `elapsed` is an environmental input.) -/
structure ProcessRun where
  raises : Option String
  elapsed : ℚ
deriving DecidableEq

/-- What `Bus._run_handler`'s `try` block observes.  Direct-mode handlers
run under `asyncio.wait_for(…, handler.timeout)`, so an execution that
outlasts the timeout is cancelled and surfaces as `asyncio.TimeoutError`;
offloaded (`execution_mode == "process"`) handlers run through
`ProcessPool.run_task` with no timeout at all. -/
inductive Observed
  | ok
  | timedOut
  | failed (msg : String)
deriving DecidableEq

/-- Stand-in for `str(e)` of the `msgspec.ValidationError` that
`ProcessPool.run_task` raises when it decodes a worker result of `None`
(msgpack nil) with `type=Envelope`; no claim depends on the exact
wording. -/
def nilDecodeMsg : String := "Expected `object`, got `null`"

/-- Classify one handler execution as observed by `Bus._run_handler`.
In the offloaded path the worker's `handle` result is msgpack-encoded
and re-decoded with `type=Envelope`, so a worker run that completes with
`None` raises a `ValidationError` in the parent and lands in the
`except Exception` branch; only a run that completes with an `Envelope`
is observed as a success. -/
def classify (h : Handler) (run : ProcessRun) (result : Option Envelope) : Observed :=
  if h.execution_mode = "process" then
    match run.raises with
    | some m => Observed.failed m
    | none =>
        match result with
        | none => Observed.failed nilDecodeMsg
        | some _ => Observed.ok
  else if run.elapsed > h.timeout then Observed.timedOut
  else
    match run.raises with
    | some m => Observed.failed m
    | none => Observed.ok

/-- Mutable state of a `Bus` instance. -/
structure Bus where
  subs : List (String × List Handler)
  queue : List Envelope
  waiters : List (String × Waiter)
  metrics : Metrics
  event_log : EventLog
  error_callbacks : List String
  notified : List (String × Envelope)
  default_timeout : ℚ

/-- Handlers subscribed to a topic: `self._subs.get(event_type, [])`. -/
def subsFor (b : Bus) (event_type : String) : List Handler :=
  ((b.subs.find? (fun p => p.1 = event_type)).map Prod.snd).getD []

/-- `Bus.register`: apply the bus-wide timeout override, then append the
handler under its subscription topic (`defaultdict(list)` semantics). -/
def Bus.register (b : Bus) (h : Handler) : Bus :=
  let h1 := if h.timeout = 30 ∧ b.default_timeout ≠ 30
            then { h with timeout := b.default_timeout } else h
  if (b.subs.find? (fun p => p.1 = h1.subscribes_to)).isSome then
    { b with subs :=
        b.subs.map (fun p => if p.1 = h1.subscribes_to then (p.1, p.2 ++ [h1]) else p) }
  else
    { b with subs := b.subs ++ [(h1.subscribes_to, [h1])] }

/-- `Bus.on_error`. -/
def Bus.on_error (b : Bus) (cb : String) : Bus :=
  { b with error_callbacks := b.error_callbacks ++ [cb] }

/-- `Bus._notify_error`: invoke every registered error callback with the
envelope (invocations are recorded in the `notified` trace; callback
failures are swallowed in the source and change no bus state). -/
def Bus.notifyError (b : Bus) (e : Envelope) : Bus :=
  { b with notified := b.notified ++ b.error_callbacks.map (fun cb => (cb, e)) }

/-- First argument of `Bus.publish`: a pre-built envelope, an event-type
string, or a value of any other type. -/
inductive PublishArg
  | envl (e : Envelope)
  | evt (s : String)
  | other
deriving DecidableEq

/-- `Bus.publish`: enqueue the given envelope, or build one from a
`(topic, struct)` pair; otherwise raise `ValueError`.  The `data`
truthiness test distinguishes only `None` from a struct instance. -/
def Bus.publish (b : Bus) (arg : PublishArg) (data : Option StructData)
    (source : String) (trace_id : Option String) (user_id : String)
    (extra : Option (List (String × String))) (freshId : String) (now : Nat) :
    Except String Bus :=
  match arg with
  | PublishArg.envl e => Except.ok { b with queue := b.queue ++ [e] }
  | PublishArg.evt s =>
      match data with
      | some d => Except.ok { b with queue := b.queue ++
          [Envelope.create s d source trace_id user_id extra freshId now] }
      | none => Except.error "publish expects Envelope or (event_type, struct)"
  | PublishArg.other => Except.error "publish expects Envelope or (event_type, struct)"

/-- First half of `Bus.request`, up to the suspension on the future:
create the envelope, register a pending waiter under
`f"{response_type or event_type + .response}:{trace_id}"`, enqueue the
envelope.  Returns the new state, the waiter key and the request
envelope. -/
def Bus.requestStart (b : Bus) (event_type : String) (data : StructData)
    (response_type : Option String) (source : String) (user_id : String)
    (extra : Option (List (String × String))) (freshId : String) (now : Nat) :
    Bus × String × Envelope :=
  let envelope := Envelope.create event_type data source none user_id extra freshId now
  let wait_event := strOr response_type (event_type ++ ".response")
  let key := waiterKey wait_event envelope.trace_id
  ({ b with waiters := insertW b.waiters key Waiter.pending,
            queue := b.queue ++ [envelope] }, key, envelope)

/-- Python float truthiness for `timeout or default`: `None` and `0.0`
both fall through to the default. -/
def qOr (a : Option ℚ) (b : ℚ) : ℚ :=
  match a with
  | some x => if x = 0 then b else x
  | none => b

/-- Second half of `Bus.request`: the awaited future either holds a
result (a dispatched envelope, or the shutdown envelope installed by
`Bus.stop`) or is still pending when `asyncio.wait_for` gives up, in
which case a synthetic timeout error envelope is returned.  The
`finally` block pops the waiter key in every case. -/
def Bus.requestFinish (b : Bus) (key : String) (envelope : Envelope)
    (timeout : Option ℚ) (now : Nat) : Bus × Envelope :=
  let result :=
    match lookupW b.waiters key with
    | some (Waiter.done e) => e
    | _ => Envelope.error_from envelope
        ("request timeout " ++ toString (qOr timeout b.default_timeout) ++ "s")
        "timeout" "bus.request" none now
  ({ b with waiters := removeW b.waiters key }, result)

/-- The envelope (if any) that one `Bus._run_handler` invocation returns;
it depends only on the handler, the envelope and the observed run. -/
def handlerResult (h : Handler) (env : Envelope) (run : ProcessRun)
    (freshId : String) (now : Nat) : Option Envelope :=
  match classify h run (h.handle env freshId now) with
  | Observed.ok => h.handle env freshId now
  | Observed.timedOut =>
      some (Envelope.error_from env ("timeout " ++ toString h.timeout ++ "s")
        "timeout" h.name none now)
  | Observed.failed msg =>
      some (Envelope.error_from env msg "handler_error" h.name none now)

/-- `Bus._run_handler`: run one handler on one envelope, record metrics
and event-log entries, notify error callbacks on failure, and return the
result envelope (if any). -/
def Bus.runHandler (b : Bus) (h : Handler) (env : Envelope) (run : ProcessRun)
    (dt : ℚ) (freshId : String) (now : Nat) : Bus × Option Envelope :=
  match classify h run (h.handle env freshId now) with
  | Observed.ok =>
      let result := h.handle env freshId now
      let b1 := { b with metrics := b.metrics.record h.name dt true "" }
      match result with
      | some r =>
          ({ b1 with event_log := b1.event_log.record r h.name dt true now }, some r)
      | none => (b1, none)
  | Observed.timedOut =>
      let msg := "timeout " ++ toString h.timeout ++ "s"
      let err := Envelope.error_from env msg "timeout" h.name none now
      let b1 := { b with metrics := b.metrics.record h.name dt false msg }
      let b2 := { b1 with event_log := b1.event_log.record err h.name dt false now }
      (b2.notifyError err, some err)
  | Observed.failed msg =>
      let err := Envelope.error_from env msg "handler_error" h.name none now
      let b1 := { b with metrics := b.metrics.record h.name dt false msg }
      let b2 := { b1 with event_log := b1.event_log.record err h.name dt false now }
      (b2.notifyError err, some err)

/-- The `asyncio.gather` over `_run_handler` invocations in
`Bus._dispatch`, linearized; per-invocation runs, measured durations and
uuid draws are indexed environmental inputs. -/
def Bus.runAll (b : Bus) (hs : List Handler) (env : Envelope)
    (runs : Nat → ProcessRun) (dts : Nat → ℚ) (fids : Nat → String) (now : Nat)
    (i : Nat) : Bus × List (Option Envelope) :=
  match hs with
  | [] => (b, [])
  | h :: rest =>
      let p := b.runHandler h env (runs i) (dts i) (fids i) now
      let q := Bus.runAll p.1 rest env runs dts fids now (i + 1)
      (q.1, p.2 :: q.2)

/-- The result loop at the end of `Bus._dispatch`: every result envelope
is checked against the waiter table and, when no waiter matches,
re-enqueued. -/
def Bus.feedResults (b : Bus) (rs : List (Option Envelope)) : Bus :=
  match rs with
  | [] => b
  | Option.none :: rest => Bus.feedResults b rest
  | Option.some e :: rest =>
      let c := checkWaiters b.waiters e
      let b1 := if c.1 then { b with waiters := c.2 }
                else { b with queue := b.queue ++ [e] }
      Bus.feedResults b1 rest

/-- `Bus._dispatch` on one dequeued envelope.  Returns the new bus state
and the names of the handlers that were fanned out to. -/
def Bus.dispatch (b : Bus) (env : Envelope) (runs : Nat → ProcessRun)
    (dts : Nat → ℚ) (fids : Nat → String) (now : Nat) : Bus × List String :=
  let b0 := { b with event_log := b.event_log.record env "" 0 true now }
  let c := checkWaiters b0.waiters env
  if c.1 then ({ b0 with waiters := c.2 }, [])
  else
    let hs := subsFor b0 env.event_type
    if hs.isEmpty then (b0, [])
    else
      let p := Bus.runAll b0 hs env runs dts fids now 0
      (Bus.feedResults p.1 p.2, hs.map Handler.name)

/-- Insertion into a Python `set`, modelled as a duplicate-free list. -/
def addSet (s : List String) (x : String) : List String :=
  if x ∈ s then s else s ++ [x]

/-- The `subscribed` set built by `Bus.validate_graph`. -/
def subscribedList (b : Bus) : List String :=
  b.subs.foldl (fun acc p => addSet acc p.1) []

/-- The `published` set built by `Bus.validate_graph` (`if h.publishes:`
skips handlers with an empty forwarding topic). -/
def publishedList (b : Bus) : List String :=
  b.subs.foldl
    (fun acc p => p.2.foldl
      (fun acc2 h => if h.publishes ≠ "" then addSet acc2 h.publishes else acc2) acc)
    []

/-- The warning string appended for a dangling published topic. -/
def warnStr (d : String) : String :=
  "event \x27" ++ d ++ "\x27 published but no handler subscribes"

/-- `Bus.validate_graph`: one warning per topic in
`published - subscribed`.  (The trailing namespace grouping in the source
computes a local dict and discards it.) -/
def Bus.validate_graph (b : Bus) : List String :=
  ((publishedList b).filter (fun d => !((subscribedList b).contains d))).map warnStr

/-! ## Helper lemmas -/

theorem record_processed (m : Metrics) (name : String) (dt : ℚ) (ok : Bool)
    (er : String) (n : String) :
    (m.record name dt ok er).processed n =
      if n = name then m.processed n + 1 else m.processed n := by
  cases ok <;> rfl

theorem record_total (m : Metrics) (name : String) (dt : ℚ) (ok : Bool)
    (er : String) (n : String) :
    (m.record name dt ok er).total_ms n =
      if n = name then m.total_ms n + dt else m.total_ms n := by
  cases ok <;> rfl

theorem foldRecord_processed (calls : List RecordCall) (m : Metrics) (n : String) :
    (calls.foldl (fun m c => m.record c.name c.duration c.ok c.err) m).processed n =
      m.processed n + (calls.filter (fun c => c.name = n)).length := by
  induction calls generalizing m with
  | nil => simp
  | cons c rest ih =>
      simp only [List.foldl_cons, ih, List.filter_cons]
      rw [record_processed]
      by_cases hc : c.name = n
      · simp [hc, Nat.add_comm, Nat.add_assoc, Nat.add_left_comm]
      · have hnc : ¬n = c.name := fun h => hc h.symm
        simp [hc, hnc]

theorem foldRecord_total (calls : List RecordCall) (m : Metrics) (n : String) :
    (calls.foldl (fun m c => m.record c.name c.duration c.ok c.err) m).total_ms n =
      m.total_ms n + ((calls.filter (fun c => c.name = n)).map RecordCall.duration).sum := by
  induction calls generalizing m with
  | nil => simp
  | cons c rest ih =>
      simp only [List.foldl_cons, ih, List.filter_cons]
      rw [record_total]
      by_cases hc : c.name = n
      · simp [hc, add_assoc]
      · have hnc : ¬n = c.name := fun h => hc h.symm
        simp [hc, hnc]

theorem pushBounded_length_le {α : Type _} (m : Nat) (b : List α) (x : α) :
    (pushBounded m b x).length ≤ m := by
  unfold pushBounded
  split
  · simp
  · split <;> simp [List.length_drop] <;> omega

theorem foldLog_max (calls : List LogCall) (l : EventLog) :
    (calls.foldl
      (fun l c => l.record c.envelope c.handler_name c.duration_ms c.ok c.now) l).max_size =
      l.max_size := by
  induction calls generalizing l with
  | nil => rfl
  | cons c rest ih => simp only [List.foldl_cons, ih]; rfl

theorem foldLog_len (calls : List LogCall) (l : EventLog)
    (h : l.buffer.length ≤ l.max_size) :
    (calls.foldl
      (fun l c => l.record c.envelope c.handler_name c.duration_ms c.ok c.now) l).buffer.length ≤
      l.max_size := by
  induction calls generalizing l with
  | nil => exact h
  | cons c rest ih =>
      simp only [List.foldl_cons]
      have hstep : (l.record c.envelope c.handler_name c.duration_ms c.ok c.now).max_size =
          l.max_size := rfl
      have := ih (l.record c.envelope c.handler_name c.duration_ms c.ok c.now)
        (by simpa [EventLog.record, hstep] using pushBounded_length_le l.max_size l.buffer _)
      simpa [hstep] using this

theorem lastN_length_le {α : Type _} (n : Nat) (xs : List α) (h : 1 ≤ n) :
    (lastN n xs).length ≤ n := by
  unfold lastN
  rw [if_neg (by omega)]
  simp [List.length_drop]
  omega

theorem lastN_suffix {α : Type _} (n : Nat) (xs : List α) : lastN n xs <:+ xs := by
  unfold lastN
  split
  · exact List.suffix_refl xs
  · exact List.drop_suffix _ xs

/-! ## Claims -/

/-- Demonstration envelope with an empty trace id, constructed directly
(the dataclass constructor allows it even though `create` never produces
one). -/
def emptyTraceEnv : Envelope :=
  { ctx := { trace_id := "", timestamp := 0, source := "", user_id := "", extra := [] },
    event_type := "t", payload := "p", error := none }

/-- Demonstration envelope with a non-empty trace id. -/
def tracedEnv : Envelope :=
  { ctx := { trace_id := "abc", timestamp := 0, source := "src", user_id := "u", extra := [] },
    event_type := "test.event", payload := "p", error := none }

/-- C5 (counterexample): `forward` does not preserve an *empty* trace id —
`create` treats the propagated trace id with Python truthiness
(`trace_id or uuid4().hex[:16]`), so an empty trace id is replaced by a
fresh one. -/
theorem C5_counterexample :
    (emptyTraceEnv.forward "u" "d" "s" "fresh1" 0).trace_id ≠ emptyTraceEnv.trace_id := by
  decide

/-- C5 (amended): provided `e`'s trace id is non-empty, `e.forward t d s`
returns an envelope with `e`'s trace id; and `Envelope.error_from e …`
unconditionally returns an envelope whose trace id (in both its `Context`
and its `Error`) equals `e`'s trace id and whose event type is
`e.event_type ++ ".error"`. -/
theorem C5_trace_propagation (e : Envelope) (t : String) (d : StructData)
    (s fid : String) (now : Nat) (msg code src : String)
    (det : Option (List (String × String))) (now2 : Nat) :
    (e.trace_id ≠ "" → (e.forward t d s fid now).trace_id = e.trace_id) ∧
    (Envelope.error_from e msg code src det now2).trace_id = e.trace_id ∧
    (∃ er, (Envelope.error_from e msg code src det now2).error = some er ∧
      er.trace_id = e.trace_id) ∧
    (Envelope.error_from e msg code src det now2).event_type = e.event_type ++ ".error" := by
  refine ⟨fun h => ?_, rfl, ⟨_, rfl, rfl⟩, rfl⟩
  have h' : e.ctx.trace_id ≠ "" := h
  simp [Envelope.forward, Envelope.create, Envelope.trace_id, strOr, h']

/-- C5 (witness): the amended claim evaluated on a concrete envelope
whose trace id is `"abc"`. -/
theorem C5_witness :
    (tracedEnv.forward "u" "d" "s" "f" 1).trace_id = tracedEnv.trace_id ∧
    (Envelope.error_from tracedEnv "m" "c" "s" none 2).trace_id = tracedEnv.trace_id := by
  refine ⟨(C5_trace_propagation tracedEnv "u" "d" "s" "f" 1 "m" "c" "s" none 2).1 (by decide),
    (C5_trace_propagation tracedEnv "u" "d" "s" "f" 1 "m" "c" "s" none 2).2.1⟩

/-- Demonstration handler whose `process` returns a payload struct and
which declares a forwarding topic. -/
def fwdHandler : Handler :=
  { name := "F", subscribes_to := "test.event", publishes := "out", timeout := 30,
    execution_mode := "main", process := fun _ => ProcResult.struct "x" }

/-- C7 (counterexample): for an envelope with an empty trace id, the
forwarded result of `handle` does not carry the envelope's trace id (the
truthiness test in `create` substitutes a fresh one). -/
theorem C7_counterexample :
    ((fwdHandler.handle emptyTraceEnv "fresh1" 0).map Envelope.trace_id) ≠
      some emptyTraceEnv.trace_id := by
  decide

/-- C7 (amended): `h.handle e` returns `none` when `process` returns
nothing; the returned envelope verbatim when `process` returns an
envelope; the payload forwarded under `h.publishes` when `process`
returns a struct and `h.publishes` is non-empty (carrying `e`'s trace id
whenever that trace id is non-empty); and `none` when `process` returns a
struct but `h.publishes` is empty. -/
theorem C7_handle_cases (h : Handler) (e : Envelope) (fid : String) (now : Nat) :
    (h.process e = ProcResult.nothing → h.handle e fid now = none) ∧
    (∀ r, h.process e = ProcResult.envl r → h.handle e fid now = some r) ∧
    (∀ d, h.process e = ProcResult.struct d → h.publishes ≠ "" →
      h.handle e fid now = some (e.forward h.publishes d h.name fid now) ∧
      (e.trace_id ≠ "" → (e.forward h.publishes d h.name fid now).trace_id = e.trace_id)) ∧
    (∀ d, h.process e = ProcResult.struct d → h.publishes = "" →
      h.handle e fid now = none) := by
  refine ⟨fun hp => ?_, fun r hp => ?_, fun d hp hpub => ⟨?_, fun ht => ?_⟩,
    fun d hp hpub => ?_⟩
  · simp [Handler.handle, hp]
  · simp [Handler.handle, hp]
  · simp [Handler.handle, hp, hpub]
  · have ht' : e.ctx.trace_id ≠ "" := ht
    simp [Envelope.forward, Envelope.create, Envelope.trace_id, strOr, ht']
  · simp [Handler.handle, hp, hpub]

/-- C7 (witness): the amended claim evaluated on `fwdHandler` and a
concrete envelope with non-empty trace id. -/
theorem C7_witness :
    fwdHandler.handle tracedEnv "f" 0 = some (tracedEnv.forward "out" "x" "F" "f" 0) ∧
    (tracedEnv.forward "out" "x" "F" "f" 0).trace_id = tracedEnv.trace_id := by
  have h := C7_handle_cases fwdHandler tracedEnv "f" 0
  exact ⟨(h.2.2.1 "x" rfl (by decide)).1, (h.2.2.1 "x" rfl (by decide)).2 (by decide)⟩

/-- C10: `Metrics.avg_ms` is total — over any sequence of `record` calls
from a fresh `Metrics`, a handler name with no recorded invocations
yields `0`, and otherwise the cumulative recorded duration divided by the
invocation count, rounded to two decimals. -/
theorem C10_avg_ms_total (calls : List RecordCall) (name : String) :
    (runMetrics calls).avg_ms name =
      (if (calls.filter (fun c => c.name = name)).length = 0 then 0
       else round2 (((calls.filter (fun c => c.name = name)).map RecordCall.duration).sum /
         ((calls.filter (fun c => c.name = name)).length : ℚ))) := by
  have hp := foldRecord_processed calls Metrics.empty name
  have ht := foldRecord_total calls Metrics.empty name
  have h0 : Metrics.empty.processed name = 0 := rfl
  have h1 : Metrics.empty.total_ms name = 0 := rfl
  rw [h0, Nat.zero_add] at hp
  rw [h1, zero_add] at ht
  simp only [runMetrics, Metrics.avg_ms, hp, ht]

/-- C6 (counterexample): `recent(0, …)` returns *all* matching entries,
not at most `0` — the Python slice `items[-n:]` degenerates to the whole
list at `n = 0`. -/
theorem C6_counterexample :
    ¬ (((EventLog.new 2).record tracedEnv "" 0 true 0).recent 0 none none).length ≤ 0 := by
  decide

/-- C6 (amended): over any sequence of `record` calls on an `EventLog`
of capacity `max_size`, the buffer never holds more than `max_size`
entries; and `recent n et tid` is a suffix of the filtered buffer (so in
original insertion order, most recent last) holding at most `n` entries
provided `n ≥ 1` (at `n = 0` it returns all matching entries). -/
theorem C6_eventlog_bounded (m : Nat) (calls : List LogCall) (n : Nat)
    (et tid : Option String) :
    (runEventLog m calls).buffer.length ≤ m ∧
    (1 ≤ n → ((runEventLog m calls).recent n et tid).length ≤ n) ∧
    ((runEventLog m calls).recent n et tid) <:+
      logFilter et tid (runEventLog m calls).buffer := by
  refine ⟨?_, fun h => lastN_length_le _ _ h, lastN_suffix _ _⟩
  have h := foldLog_len calls (EventLog.new m) (by simp [EventLog.new])
  simpa [runEventLog, EventLog.new] using h

/-- C6 (witness): the amended claim evaluated at capacity 2, one record
and `n = 1`. -/
theorem C6_witness :
    (runEventLog 2 [⟨tracedEnv, "", 0, true, 0⟩]).buffer.length ≤ 2 ∧
    ((runEventLog 2 [⟨tracedEnv, "", 0, true, 0⟩]).recent 1 none none).length ≤ 1 := by
  have h := C6_eventlog_bounded 2 [⟨tracedEnv, "", 0, true, 0⟩] 1 none none
  exact ⟨h.1, h.2.1 (by decide)⟩

/-! ## Waiter-table lemmas -/

theorem lookupW_setW_self (ws : List (String × Waiter)) (k : String) (w : Waiter)
    (h : (lookupW ws k).isSome) : lookupW (setW ws k w) k = some w := by
  induction ws with
  | nil => simp [lookupW] at h
  | cons p rest ih =>
      by_cases hp : p.1 = k
      · simp [lookupW, setW, hp]
      · simp only [lookupW, setW, List.map_cons, if_neg hp] at h ⊢
        exact ih h

theorem lookupW_setW_ne (ws : List (String × Waiter)) (k k2 : String) (w : Waiter)
    (h : k ≠ k2) : lookupW (setW ws k2 w) k = lookupW ws k := by
  induction ws with
  | nil => rfl
  | cons p rest ih =>
      by_cases hp : p.1 = k2
      · have : k2 ≠ k := fun hk => h hk.symm
        simp only [setW, List.map_cons, if_pos hp, lookupW, if_neg this]
        rw [if_neg (hp ▸ this : ¬p.1 = k)] at *
        exact ih
      · simp only [setW, List.map_cons, if_neg hp, lookupW]
        by_cases hk : p.1 = k
        · rw [if_pos hk, if_pos hk]
        · rw [if_neg hk, if_neg hk]
          exact ih

theorem lookupW_append_none (ws l : List (String × Waiter)) (k : String)
    (h : lookupW ws k = none) : lookupW (ws ++ l) k = lookupW l k := by
  induction ws with
  | nil => rfl
  | cons p rest ih =>
      by_cases hp : p.1 = k
      · simp [lookupW, hp] at h
      · simp only [lookupW, if_neg hp] at h
        simpa [lookupW, hp] using ih h

theorem lookupW_insertW_self (ws : List (String × Waiter)) (k : String) (w : Waiter) :
    lookupW (insertW ws k w) k = some w := by
  unfold insertW
  by_cases h : (lookupW ws k).isSome
  · rw [if_pos h]
    exact lookupW_setW_self ws k w h
  · rw [if_neg h]
    have hn : lookupW ws k = none := by
      cases hl : lookupW ws k
      · rfl
      · rw [hl] at h; simp at h
    rw [lookupW_append_none ws _ k hn]
    simp [lookupW]

theorem lookupW_removeW (ws : List (String × Waiter)) (k : String) :
    lookupW (removeW ws k) k = none := by
  induction ws with
  | nil => rfl
  | cons p rest ih =>
      by_cases hp : p.1 = k
      · simpa [removeW, List.filter_cons, hp] using ih
      · simp only [removeW, List.filter_cons] at ih ⊢
        simp only [show (decide (p.1 ≠ k)) = true by simp [hp], if_true, cond_true]
        simpa [lookupW, hp] using ih

theorem checkWaiters_pending (ws : List (String × Waiter)) (e : Envelope)
    (h : lookupW ws (waiterKey e.event_type e.trace_id) = some Waiter.pending) :
    checkWaiters ws e =
      (true, setW ws (waiterKey e.event_type e.trace_id) (Waiter.done e)) := by
  simp [checkWaiters, h]

theorem checkWaiters_false (ws : List (String × Waiter)) (e : Envelope)
    (h : (checkWaiters ws e).1 = false) : checkWaiters ws e = (false, ws) := by
  unfold checkWaiters at h ⊢
  cases hl : lookupW ws (waiterKey e.event_type e.trace_id) with
  | none => rfl
  | some w =>
      cases w with
      | pending => rw [hl] at h; simp at h
      | done e2 => rfl

theorem checkWaiters_done_stable (ws : List (String × Waiter)) (e : Envelope)
    (k : String) (e0 : Envelope) (h : lookupW ws k = some (Waiter.done e0)) :
    lookupW (checkWaiters ws e).2 k = some (Waiter.done e0) := by
  unfold checkWaiters
  cases hl : lookupW ws (waiterKey e.event_type e.trace_id) with
  | none => simpa using h
  | some w =>
      cases w with
      | pending =>
          by_cases hk : k = waiterKey e.event_type e.trace_id
          · rw [hk] at h; rw [h] at hl; exact absurd hl (by simp)
          · simpa [lookupW_setW_ne ws k _ _ hk] using h
      | done e2 => simpa using h

/-! ## C1: waiter priority in dispatch -/

/-- C1: when the waiter table holds a pending waiter keyed by the
dequeued envelope's `(event_type, trace_id)`, `_dispatch` resolves that
waiter with the envelope and performs no handler fan-out: no handler is
invoked, no metrics are recorded, nothing is notified or re-enqueued, and
the waiter is resolved with exactly this envelope — so an envelope is
never both used to resolve a waiter and delivered to subscribers. -/
theorem C1_waiter_priority (b : Bus) (env : Envelope) (runs : Nat → ProcessRun)
    (dts : Nat → ℚ) (fids : Nat → String) (now : Nat)
    (h : lookupW b.waiters (waiterKey env.event_type env.trace_id) = some Waiter.pending) :
    (b.dispatch env runs dts fids now).2 = [] ∧
    (b.dispatch env runs dts fids now).1.queue = b.queue ∧
    (b.dispatch env runs dts fids now).1.metrics = b.metrics ∧
    (b.dispatch env runs dts fids now).1.notified = b.notified ∧
    lookupW (b.dispatch env runs dts fids now).1.waiters
      (waiterKey env.event_type env.trace_id) = some (Waiter.done env) := by
  have hc := checkWaiters_pending b.waiters env h
  refine ⟨?_, ?_, ?_, ?_, ?_⟩ <;>
    simp only [Bus.dispatch, hc] <;>
    try rfl
  exact lookupW_setW_self b.waiters _ _ (by rw [h]; rfl)

/-- Bus with a pending waiter for `tracedEnv`'s key and a subscriber on
its topic. -/
def waitingBus : Bus :=
  { subs := [("test.event", [fwdHandler])], queue := [],
    waiters := [("test.event:abc", Waiter.pending)], metrics := Metrics.empty,
    event_log := EventLog.new 10, error_callbacks := [], notified := [],
    default_timeout := 30 }

/-- C1 (witness): dispatching `tracedEnv` on `waitingBus` — which has a
subscriber for the topic — fans out to no handler and resolves the
waiter. -/
theorem C1_witness :
    (waitingBus.dispatch tracedEnv (fun _ => ⟨none, 0⟩) (fun _ => 0) (fun _ => "") 0).2 = [] ∧
    lookupW (waitingBus.dispatch tracedEnv (fun _ => ⟨none, 0⟩) (fun _ => 0)
      (fun _ => "") 0).1.waiters (waiterKey tracedEnv.event_type tracedEnv.trace_id) =
      some (Waiter.done tracedEnv) := by
  have h := C1_waiter_priority waitingBus tracedEnv (fun _ => ⟨none, 0⟩) (fun _ => 0)
    (fun _ => "") 0 (by decide)
  exact ⟨h.1, h.2.2.2.2⟩

/-! ## C2: handler timeout handling -/

theorem record_errors (m : Metrics) (name : String) (dt : ℚ) (ok : Bool)
    (er : String) (n : String) :
    (m.record name dt ok er).errors n =
      if ok then m.errors n else (if n = name then m.errors n + 1 else m.errors n) := by
  cases ok <;> rfl

/-- Offloaded demonstration handler: `execution_mode == "process"`,
declared timeout 1, returning nothing. -/
def poolHandler : Handler :=
  { name := "P", subscribes_to := "calc.heavy", publishes := "", timeout := 1,
    execution_mode := "process", process := fun _ => ProcResult.nothing }

/-- Offloaded demonstration handler whose `process` returns a pre-built
Envelope, so the worker result round-trips losslessly through
`run_task`'s msgpack encode/decode. -/
def poolEnvHandler : Handler :=
  { name := "Q", subscribes_to := "calc.heavy", publishes := "", timeout := 1,
    execution_mode := "process", process := fun _ => ProcResult.envl tracedEnv }

/-- Direct-mode demonstration handler with declared timeout 1. -/
def slowHandler : Handler :=
  { name := "S", subscribes_to := "test.event", publishes := "", timeout := 1,
    execution_mode := "main", process := fun _ => ProcResult.nothing }

/-- Demonstration bus with one registered error callback. -/
def poolBus : Bus :=
  { subs := [("calc.heavy", [poolHandler])], queue := [], waiters := [],
    metrics := Metrics.empty, event_log := EventLog.new 10, error_callbacks := ["cb"],
    notified := [], default_timeout := 30 }

/-- C2 (counterexample): an *offloaded* handler (`execution_mode ==
"process"`) runs through `ProcessPool.run_task` with no timeout, so a
worker execution that completes with an Envelope after outlasting its
configured timeout (elapsed 5 > timeout 1) is returned verbatim: no
timeout Error Envelope (the result's `error` field is `none`), the
failure counter stays at 0 and no error callback is invoked — contrary
to the claim, which quantifies over every registered handler. -/
theorem C2_counterexample :
    (poolBus.runHandler poolEnvHandler tracedEnv ⟨none, 5⟩ 2 "f" 0).2 = some tracedEnv ∧
    tracedEnv.error = none ∧
    (poolBus.runHandler poolEnvHandler tracedEnv ⟨none, 5⟩ 2 "f" 0).1.metrics.errors "Q" = 0 ∧
    (poolBus.runHandler poolEnvHandler tracedEnv ⟨none, 5⟩ 2 "f" 0).1.notified = [] := by
  exact ⟨rfl, rfl, rfl, rfl⟩

/-- C2 (amended): for a *direct-mode* handler invocation
(`execution_mode ≠ "process"`) whose execution does not finish within the
handler's configured timeout, `_run_handler` returns a timeout Error
Envelope (code `"timeout"`, event type suffixed `".error"`), increments
the handler's failure counter by exactly 1 and invokes every registered
error callback with that envelope. -/
theorem C2_timeout_handling (b : Bus) (h : Handler) (env : Envelope) (run : ProcessRun)
    (dt : ℚ) (fid : String) (now : Nat)
    (hmode : h.execution_mode ≠ "process") (ht : run.elapsed > h.timeout) :
    (b.runHandler h env run dt fid now).2 =
      some (Envelope.error_from env ("timeout " ++ toString h.timeout ++ "s")
        "timeout" h.name none now) ∧
    (Envelope.error_from env ("timeout " ++ toString h.timeout ++ "s")
      "timeout" h.name none now).event_type = env.event_type ++ ".error" ∧
    (∃ er, (Envelope.error_from env ("timeout " ++ toString h.timeout ++ "s")
      "timeout" h.name none now).error = some er ∧ er.code = "timeout") ∧
    (b.runHandler h env run dt fid now).1.metrics.errors h.name =
      b.metrics.errors h.name + 1 ∧
    (b.runHandler h env run dt fid now).1.notified =
      b.notified ++ b.error_callbacks.map
        (fun cb => (cb, Envelope.error_from env ("timeout " ++ toString h.timeout ++ "s")
          "timeout" h.name none now)) := by
  have hc : classify h run (h.handle env fid now) = Observed.timedOut := by
    simp [classify, hmode, ht]
  refine ⟨?_, rfl, ⟨_, rfl, rfl⟩, ?_, ?_⟩ <;>
    simp only [Bus.runHandler, hc] <;>
    simp [Bus.notifyError, record_errors]

/-- C2 (witness): the amended claim evaluated on a concrete direct-mode
handler whose run takes 5 > timeout 1. -/
theorem C2_witness :
    (poolBus.runHandler slowHandler tracedEnv ⟨none, 5⟩ 2 "f" 0).2 =
      some (Envelope.error_from tracedEnv ("timeout " ++ toString slowHandler.timeout ++ "s")
        "timeout" slowHandler.name none 0) ∧
    (poolBus.runHandler slowHandler tracedEnv ⟨none, 5⟩ 2 "f" 0).1.metrics.errors
      slowHandler.name = poolBus.metrics.errors slowHandler.name + 1 := by
  have h := C2_timeout_handling poolBus slowHandler tracedEnv ⟨none, 5⟩ 2 "f" 0
    (by decide) (by decide)
  exact ⟨h.1, h.2.2.2.1⟩

/-! ## C8: publish validation -/

/-- C8: `publish` raises `ValueError` exactly when its first argument is
neither a pre-built Envelope nor an event-type string paired with a
payload struct; otherwise it enqueues exactly one envelope — the given
one, or one freshly created from the `(topic, payload)` pair. -/
theorem C8_publish (b : Bus) (arg : PublishArg) (data : Option StructData)
    (source : String) (tid : Option String) (uid : String)
    (extra : Option (List (String × String))) (fid : String) (now : Nat) :
    ((∃ msg, b.publish arg data source tid uid extra fid now = Except.error msg) ↔
      (∀ e, arg ≠ PublishArg.envl e) ∧ (∀ s, arg = PublishArg.evt s → data = none)) ∧
    (∀ e, arg = PublishArg.envl e →
      b.publish arg data source tid uid extra fid now =
        Except.ok { b with queue := b.queue ++ [e] }) ∧
    (∀ s d, arg = PublishArg.evt s → data = some d →
      b.publish arg data source tid uid extra fid now =
        Except.ok { b with queue := b.queue ++
          [Envelope.create s d source tid uid extra fid now] }) := by
  cases arg <;> cases data <;>
    simp [Bus.publish]

/-- C8 (witness): `publish` on a `(topic, payload)` pair enqueues the
created envelope; `publish` on an argument of the wrong type fails. -/
theorem C8_witness :
    (poolBus.publish (PublishArg.evt "t") (some "d") "" none "" none "f" 0 =
      Except.ok { poolBus with queue := poolBus.queue ++
        [Envelope.create "t" "d" "" none "" none "f" 0] }) ∧
    (∃ msg, poolBus.publish PublishArg.other none "" none "" none "f" 0 =
      Except.error msg) := by
  refine ⟨(C8_publish poolBus (PublishArg.evt "t") (some "d") "" none "" none "f" 0).2.2
      "t" "d" rfl rfl,
    (C8_publish poolBus PublishArg.other none "" none "" none "f" 0).1.mpr
      ⟨fun e => by simp, fun s hs => by simp at hs⟩⟩

/-! ## C4: request timeout and waiter cleanup -/

/-- C4: `request` registers a pending waiter under
`(response_type or event_type ++ ".response") : trace_id` and enqueues
its envelope; on completion the waiter entry is removed in every
outcome, a resolved future's envelope is returned as-is, and when no
matching envelope resolved the future within the timeout a synthetic
Error Envelope with code `"timeout"` is returned instead of raising. -/
theorem C4_request (b : Bus) (event_type : String) (data : StructData)
    (response_type : Option String) (source uid : String)
    (extra : Option (List (String × String))) (fid : String) (now : Nat)
    (b2 : Bus) (timeout : Option ℚ) (now2 : Nat) :
    lookupW (b.requestStart event_type data response_type source uid extra fid now).1.waiters
      (b.requestStart event_type data response_type source uid extra fid now).2.1 =
      some Waiter.pending ∧
    (b.requestStart event_type data response_type source uid extra fid now).2.2 ∈
      (b.requestStart event_type data response_type source uid extra fid now).1.queue ∧
    (b.requestStart event_type data response_type source uid extra fid now).2.1 =
      waiterKey (strOr response_type (event_type ++ ".response"))
        (b.requestStart event_type data response_type source uid extra fid now).2.2.trace_id ∧
    (∀ key envelope,
      lookupW (b2.requestFinish key envelope timeout now2).1.waiters key = none) ∧
    (∀ key envelope e, lookupW b2.waiters key = some (Waiter.done e) →
      (b2.requestFinish key envelope timeout now2).2 = e) ∧
    (∀ key envelope, (∀ e, lookupW b2.waiters key ≠ some (Waiter.done e)) →
      (b2.requestFinish key envelope timeout now2).2 =
        Envelope.error_from envelope
          ("request timeout " ++ toString (qOr timeout b2.default_timeout) ++ "s")
          "timeout" "bus.request" none now2 ∧
      ∃ er, (b2.requestFinish key envelope timeout now2).2.error = some er ∧
        er.code = "timeout") := by
  refine ⟨?_, ?_, rfl, fun key envelope => ?_, fun key envelope e he => ?_,
    fun key envelope hne => ?_⟩
  · exact lookupW_insertW_self b.waiters _ _
  · simp [Bus.requestStart]
  · exact lookupW_removeW b2.waiters key
  · simp [Bus.requestFinish, he]
  · cases hl : lookupW b2.waiters key with
    | none =>
        have hf : (b2.requestFinish key envelope timeout now2).2 =
            Envelope.error_from envelope
              ("request timeout " ++ toString (qOr timeout b2.default_timeout) ++ "s")
              "timeout" "bus.request" none now2 := by
          simp [Bus.requestFinish, hl]
        exact ⟨hf, by rw [hf]; exact ⟨_, rfl, rfl⟩⟩
    | some w =>
        cases w with
        | pending =>
            have hf : (b2.requestFinish key envelope timeout now2).2 =
                Envelope.error_from envelope
                  ("request timeout " ++ toString (qOr timeout b2.default_timeout) ++ "s")
                  "timeout" "bus.request" none now2 := by
              simp [Bus.requestFinish, hl]
            exact ⟨hf, by rw [hf]; exact ⟨_, rfl, rfl⟩⟩
        | done e => exact absurd hl (hne e)

/-- Bus with no registrations, queue, or waiters. -/
def emptyBus : Bus :=
  { subs := [], queue := [], waiters := [], metrics := Metrics.empty,
    event_log := EventLog.new 10, error_callbacks := [], notified := [],
    default_timeout := 30 }

/-- C4 (witness): a concrete request against an empty bus registers a
pending waiter, and finishing against a bus whose waiter was never
resolved removes the entry and returns a code-`"timeout"` Error
Envelope. -/
theorem C4_witness :
    lookupW (emptyBus.requestStart "q" "d" none "" "" none "tid1" 0).1.waiters
      (emptyBus.requestStart "q" "d" none "" "" none "tid1" 0).2.1 =
      some Waiter.pending ∧
    lookupW (emptyBus.requestFinish "q.response:tid1" tracedEnv none 1).1.waiters
      "q.response:tid1" = none ∧
    (∃ er, (emptyBus.requestFinish "q.response:tid1" tracedEnv none 1).2.error = some er ∧
      er.code = "timeout") := by
  have h := C4_request emptyBus "q" "d" none "" "" none "tid1" 0 emptyBus none 1
  exact ⟨h.1, h.2.2.2.1 "q.response:tid1" tracedEnv,
    (h.2.2.2.2.2 "q.response:tid1" tracedEnv (fun e he => by simp [lookupW] at he)).2⟩

/-! ## C3: handler exceptions re-enter the dispatch pipeline -/

theorem runHandler_snd (b : Bus) (h : Handler) (env : Envelope) (run : ProcessRun)
    (dt : ℚ) (fid : String) (now : Nat) :
    (b.runHandler h env run dt fid now).2 = handlerResult h env run fid now := by
  cases hc : classify h run (h.handle env fid now)
  · simp only [Bus.runHandler, handlerResult, hc]
    cases hh : h.handle env fid now <;> simp [hh]
  · simp [Bus.runHandler, handlerResult, hc]
  · simp [Bus.runHandler, handlerResult, hc]

theorem runHandler_frame (b : Bus) (h : Handler) (env : Envelope) (run : ProcessRun)
    (dt : ℚ) (fid : String) (now : Nat) :
    (b.runHandler h env run dt fid now).1.queue = b.queue ∧
    (b.runHandler h env run dt fid now).1.waiters = b.waiters := by
  cases hc : classify h run (h.handle env fid now)
  · simp only [Bus.runHandler, hc]
    cases hh : h.handle env fid now <;> simp [hh]
  · simp [Bus.runHandler, hc, Bus.notifyError]
  · simp [Bus.runHandler, hc, Bus.notifyError]

theorem runAll_frame (env : Envelope) (runs : Nat → ProcessRun) (dts : Nat → ℚ)
    (fids : Nat → String) (now : Nat) :
    ∀ (hs : List Handler) (b : Bus) (j : Nat),
    (Bus.runAll b hs env runs dts fids now j).1.queue = b.queue ∧
    (Bus.runAll b hs env runs dts fids now j).1.waiters = b.waiters := by
  intro hs
  induction hs with
  | nil => intro b j; exact ⟨rfl, rfl⟩
  | cons h rest ih =>
      intro b j
      have hf := runHandler_frame b h env (runs j) (dts j) (fids j) now
      have hi := ih (b.runHandler h env (runs j) (dts j) (fids j) now).1 (j + 1)
      exact ⟨hi.1.trans hf.1, hi.2.trans hf.2⟩

theorem runAll_get (env : Envelope) (runs : Nat → ProcessRun) (dts : Nat → ℚ)
    (fids : Nat → String) (now : Nat) :
    ∀ (hs : List Handler) (b : Bus) (j i : Nat) (h : Handler), hs[i]? = some h →
    (Bus.runAll b hs env runs dts fids now j).2[i]? =
      some (handlerResult h env (runs (j + i)) (fids (j + i)) now) := by
  intro hs
  induction hs with
  | nil => intro b j i h hh; simp at hh
  | cons hd tl ih =>
      intro b j i h hh
      cases i with
      | zero =>
          simp only [List.getElem?_cons_zero, Option.some.injEq] at hh
          subst hh
          simp only [Bus.runAll, List.getElem?_cons_zero, Nat.add_zero]
          rw [runHandler_snd]
      | succ i2 =>
          simp only [List.getElem?_cons_succ] at hh
          simp only [Bus.runAll, List.getElem?_cons_succ]
          have harith : j + 1 + i2 = j + (i2 + 1) := by omega
          rw [ih _ (j + 1) i2 h hh, harith]

theorem feedResults_queue_mono (rs : List (Option Envelope)) :
    ∀ (b : Bus) (e : Envelope), e ∈ b.queue → e ∈ (Bus.feedResults b rs).queue := by
  induction rs with
  | nil => intro b e he; exact he
  | cons r rest ih =>
      intro b e he
      cases r with
      | none => exact ih b e he
      | some e2 =>
          simp only [Bus.feedResults]
          by_cases hc : (checkWaiters b.waiters e2).1
          · rw [if_pos hc]
            exact ih _ e he
          · rw [if_neg hc]
            exact ih _ e (List.mem_append_left _ he)

theorem feedResults_done_mono (rs : List (Option Envelope)) :
    ∀ (b : Bus) (k : String) (e0 : Envelope),
    lookupW b.waiters k = some (Waiter.done e0) →
    lookupW (Bus.feedResults b rs).waiters k = some (Waiter.done e0) := by
  induction rs with
  | nil => intro b k e0 h; exact h
  | cons r rest ih =>
      intro b k e0 h
      cases r with
      | none => exact ih b k e0 h
      | some e2 =>
          simp only [Bus.feedResults]
          by_cases hc : (checkWaiters b.waiters e2).1
          · rw [if_pos hc]
            exact ih _ k e0 (checkWaiters_done_stable b.waiters e2 k e0 h)
          · rw [if_neg hc]
            exact ih _ k e0 h

theorem checkWaiters_true (ws : List (String × Waiter)) (e : Envelope)
    (h : (checkWaiters ws e).1 = true) :
    lookupW ws (waiterKey e.event_type e.trace_id) = some Waiter.pending ∧
    (checkWaiters ws e).2 =
      setW ws (waiterKey e.event_type e.trace_id) (Waiter.done e) := by
  unfold checkWaiters at h ⊢
  cases hl : lookupW ws (waiterKey e.event_type e.trace_id) with
  | none => rw [hl] at h; simp at h
  | some w =>
      cases w with
      | pending => exact ⟨rfl, rfl⟩
      | done e2 => rw [hl] at h; simp at h

theorem feedResults_mem (rs : List (Option Envelope)) :
    ∀ (b : Bus) (e : Envelope), some e ∈ rs →
    e ∈ (Bus.feedResults b rs).queue ∨
    lookupW (Bus.feedResults b rs).waiters (waiterKey e.event_type e.trace_id) =
      some (Waiter.done e) := by
  induction rs with
  | nil => intro b e he; simp at he
  | cons r rest ih =>
      intro b e he
      rcases List.mem_cons.mp he with heq | htl
      · subst heq
        simp only [Bus.feedResults]
        by_cases hc : (checkWaiters b.waiters e).1
        · rw [if_pos hc]
          have ht := checkWaiters_true b.waiters e hc
          refine Or.inr (feedResults_done_mono rest _ _ e ?_)
          rw [ht.2]
          exact lookupW_setW_self b.waiters _ _ (by rw [ht.1]; rfl)
        · rw [if_neg hc]
          exact Or.inl (feedResults_queue_mono rest _ e
            (List.mem_append_right _ (List.mem_singleton.mpr rfl)))
      · cases r with
        | none => exact ih b e htl
        | some e2 =>
            simp only [Bus.feedResults]
            by_cases hc : (checkWaiters b.waiters e2).1
            · rw [if_pos hc]; exact ih _ e htl
            · rw [if_neg hc]; exact ih _ e htl

theorem dispatch_fanout (b : Bus) (env : Envelope) (runs : Nat → ProcessRun)
    (dts : Nat → ℚ) (fids : Nat → String) (now : Nat)
    (hnw : (checkWaiters b.waiters env).1 = false)
    (hne : (subsFor b env.event_type).isEmpty = false) :
    b.dispatch env runs dts fids now =
      (Bus.feedResults
        (Bus.runAll { b with event_log := b.event_log.record env "" 0 true now }
          (subsFor b env.event_type) env runs dts fids now 0).1
        (Bus.runAll { b with event_log := b.event_log.record env "" 0 true now }
          (subsFor b env.event_type) env runs dts fids now 0).2,
       (subsFor b env.event_type).map Handler.name) := by
  have hsubs : subsFor { b with event_log := b.event_log.record env "" 0 true now }
      env.event_type = subsFor b env.event_type := rfl
  simp only [Bus.dispatch, hsubs, hnw, hne, Bool.false_eq_true, if_false]

/-- C3: a handler invocation that raises is converted to an Error
Envelope with code `"handler_error"` carrying the same trace id, and that
envelope re-enters the dispatch pipeline: after `_dispatch` finishes it
has either resolved a matching waiter or been re-enqueued on the bus
queue (the dispatch function is total, so the loop never crashes). -/
theorem C3_handler_error_reentry (b : Bus) (env : Envelope) (runs : Nat → ProcessRun)
    (dts : Nat → ℚ) (fids : Nat → String) (now : Nat) (i : Nat) (h : Handler)
    (msg : String)
    (hnw : (checkWaiters b.waiters env).1 = false)
    (hh : (subsFor b env.event_type)[i]? = some h)
    (hcl : classify h (runs i) (h.handle env (fids i) now) = Observed.failed msg) :
    (Envelope.error_from env msg "handler_error" h.name none now).trace_id =
      env.trace_id ∧
    (∃ er, (Envelope.error_from env msg "handler_error" h.name none now).error =
      some er ∧ er.code = "handler_error" ∧ er.trace_id = env.trace_id) ∧
    ((Envelope.error_from env msg "handler_error" h.name none now) ∈
        (b.dispatch env runs dts fids now).1.queue ∨
      lookupW (b.dispatch env runs dts fids now).1.waiters
        (waiterKey (Envelope.error_from env msg "handler_error" h.name none now).event_type
          (Envelope.error_from env msg "handler_error" h.name none now).trace_id) =
        some (Waiter.done (Envelope.error_from env msg "handler_error" h.name none now))) := by
  refine ⟨rfl, ⟨_, rfl, rfl, rfl⟩, ?_⟩
  have hne : (subsFor b env.event_type).isEmpty = false := by
    cases hl : subsFor b env.event_type with
    | nil => rw [hl] at hh; simp at hh
    | cons x xs => rfl
  rw [dispatch_fanout b env runs dts fids now hnw hne]
  have hget := runAll_get env runs dts fids now (subsFor b env.event_type)
    { b with event_log := b.event_log.record env "" 0 true now } 0 i h hh
  rw [Nat.zero_add] at hget
  have hres : handlerResult h env (runs i) (fids i) now =
      some (Envelope.error_from env msg "handler_error" h.name none now) := by
    simp [handlerResult, hcl]
  rw [hres] at hget
  exact feedResults_mem _ _ _ (List.getElem?_mem hget)

/-- Bus with a subscriber on `tracedEnv`'s topic and no waiters. -/
def plainBus : Bus :=
  { subs := [("test.event", [slowHandler])], queue := [], waiters := [],
    metrics := Metrics.empty, event_log := EventLog.new 10, error_callbacks := [],
    notified := [], default_timeout := 30 }

/-- C3 (witness): dispatching `tracedEnv` on `plainBus` when the only
handler raises `"boom"` re-enqueues (or waiter-resolves) the
`handler_error` envelope. -/
theorem C3_witness :
    (Envelope.error_from tracedEnv "boom" "handler_error" slowHandler.name none 0).trace_id =
      tracedEnv.trace_id ∧
    ((Envelope.error_from tracedEnv "boom" "handler_error" slowHandler.name none 0) ∈
        (plainBus.dispatch tracedEnv (fun _ => ⟨some "boom", 0⟩) (fun _ => 0)
          (fun _ => "") 0).1.queue ∨
      lookupW (plainBus.dispatch tracedEnv (fun _ => ⟨some "boom", 0⟩) (fun _ => 0)
        (fun _ => "") 0).1.waiters
        (waiterKey (Envelope.error_from tracedEnv "boom" "handler_error"
            slowHandler.name none 0).event_type
          (Envelope.error_from tracedEnv "boom" "handler_error"
            slowHandler.name none 0).trace_id) =
        some (Waiter.done (Envelope.error_from tracedEnv "boom" "handler_error"
          slowHandler.name none 0))) := by
  have h := C3_handler_error_reentry plainBus tracedEnv (fun _ => ⟨some "boom", 0⟩)
    (fun _ => 0) (fun _ => "") 0 0 slowHandler "boom" (by decide) rfl (by decide)
  exact ⟨h.1, h.2.2⟩

/-! ## C9: validate_graph -/

theorem mem_addSet (s : List String) (x y : String) :
    x ∈ addSet s y ↔ x ∈ s ∨ x = y := by
  unfold addSet
  split
  · rename_i hy
    constructor
    · exact Or.inl
    · rintro (hx | rfl)
      · exact hx
      · exact hy
  · simp [List.mem_append]

theorem nodup_addSet (s : List String) (y : String) (h : s.Nodup) :
    (addSet s y).Nodup := by
  unfold addSet
  split
  · exact h
  · rename_i hy
    simp [List.nodup_append, h, hy]

theorem mem_sub_fold (l : List (String × List Handler)) :
    ∀ (acc : List String) (x : String),
    (x ∈ l.foldl (fun acc p => addSet acc p.1) acc ↔ x ∈ acc ∨ ∃ p ∈ l, p.1 = x) := by
  induction l with
  | nil => intro acc x; simp
  | cons p rest ih =>
      intro acc x
      simp only [List.foldl_cons, ih, mem_addSet, List.mem_cons]
      constructor
      · rintro ((hx | rfl) | ⟨q, hq, rfl⟩)
        · exact Or.inl hx
        · exact Or.inr ⟨p, Or.inl rfl, rfl⟩
        · exact Or.inr ⟨q, Or.inr hq, rfl⟩
      · rintro (hx | ⟨q, (rfl | hq), rfl⟩)
        · exact Or.inl (Or.inl hx)
        · exact Or.inl (Or.inr rfl)
        · exact Or.inr ⟨q, hq, rfl⟩

theorem nodup_sub_fold (l : List (String × List Handler)) :
    ∀ (acc : List String), acc.Nodup →
    (l.foldl (fun acc p => addSet acc p.1) acc).Nodup := by
  induction l with
  | nil => intro acc h; exact h
  | cons p rest ih =>
      intro acc h
      exact ih _ (nodup_addSet acc p.1 h)

theorem mem_pub_inner (hs : List Handler) :
    ∀ (acc : List String) (x : String),
    (x ∈ hs.foldl
      (fun acc2 h => if h.publishes ≠ "" then addSet acc2 h.publishes else acc2) acc ↔
      x ∈ acc ∨ ∃ h ∈ hs, h.publishes = x ∧ x ≠ "") := by
  induction hs with
  | nil => intro acc x; simp
  | cons hd tl ih =>
      intro acc x
      simp only [List.foldl_cons, List.mem_cons]
      by_cases hp : hd.publishes ≠ ""
      · rw [if_pos hp]
        simp only [ih, mem_addSet]
        constructor
        · rintro ((hx | rfl) | ⟨q, hq, rfl, hxe⟩)
          · exact Or.inl hx
          · exact Or.inr ⟨hd, Or.inl rfl, rfl, hp⟩
          · exact Or.inr ⟨q, Or.inr hq, rfl, hxe⟩
        · rintro (hx | ⟨q, (rfl | hq), rfl, hxe⟩)
          · exact Or.inl (Or.inl hx)
          · exact Or.inl (Or.inr rfl)
          · exact Or.inr ⟨q, hq, rfl, hxe⟩
      · rw [if_neg hp]
        push_neg at hp
        simp only [ih]
        constructor
        · rintro (hx | ⟨q, hq, rfl, hxe⟩)
          · exact Or.inl hx
          · exact Or.inr ⟨q, Or.inr hq, rfl, hxe⟩
        · rintro (hx | ⟨q, (rfl | hq), rfl, hxe⟩)
          · exact Or.inl hx
          · exact absurd hp hxe
          · exact Or.inr ⟨q, hq, rfl, hxe⟩

theorem nodup_pub_inner (hs : List Handler) :
    ∀ (acc : List String), acc.Nodup →
    (hs.foldl
      (fun acc2 h => if h.publishes ≠ "" then addSet acc2 h.publishes else acc2) acc).Nodup := by
  induction hs with
  | nil => intro acc h; exact h
  | cons hd tl ih =>
      intro acc h
      simp only [List.foldl_cons]
      by_cases hp : hd.publishes ≠ ""
      · rw [if_pos hp]
        exact ih _ (nodup_addSet acc hd.publishes h)
      · rw [if_neg hp]
        exact ih _ h

theorem mem_pub_fold (l : List (String × List Handler)) :
    ∀ (acc : List String) (x : String),
    (x ∈ l.foldl
      (fun acc p => p.2.foldl
        (fun acc2 h => if h.publishes ≠ "" then addSet acc2 h.publishes else acc2) acc) acc ↔
      x ∈ acc ∨ ∃ p ∈ l, ∃ h ∈ p.2, h.publishes = x ∧ x ≠ "") := by
  induction l with
  | nil => intro acc x; simp
  | cons p rest ih =>
      intro acc x
      simp only [List.foldl_cons, ih, mem_pub_inner, List.mem_cons]
      constructor
      · rintro ((hx | ⟨q, hq, hx⟩) | ⟨r, hr, q, hq, hx⟩)
        · exact Or.inl hx
        · exact Or.inr ⟨p, Or.inl rfl, q, hq, hx⟩
        · exact Or.inr ⟨r, Or.inr hr, q, hq, hx⟩
      · rintro (hx | ⟨r, (rfl | hr), q, hq, hx⟩)
        · exact Or.inl (Or.inl hx)
        · exact Or.inl (Or.inr ⟨q, hq, hx⟩)
        · exact Or.inr ⟨r, hr, q, hq, hx⟩

theorem nodup_pub_fold (l : List (String × List Handler)) :
    ∀ (acc : List String), acc.Nodup →
    (l.foldl
      (fun acc p => p.2.foldl
        (fun acc2 h => if h.publishes ≠ "" then addSet acc2 h.publishes else acc2) acc) acc).Nodup := by
  induction l with
  | nil => intro acc h; exact h
  | cons p rest ih =>
      intro acc h
      exact ih _ (nodup_pub_inner p.2 acc h)

theorem warnStr_inj : Function.Injective warnStr := by
  intro a b h
  unfold warnStr at h
  have hd : ("event \x27".data ++ (a.data ++ "\x27 published but no handler subscribes".data)) =
      ("event \x27".data ++ (b.data ++ "\x27 published but no handler subscribes".data)) := by
    have := congrArg String.data h
    simpa [String.append_assoc] using this
  exact String.ext (List.append_cancel_right (List.append_cancel_left hd))

/-- C9: `validate_graph` emits exactly one warning string per topic that
some registered handler declares as its (non-empty) forwarding topic but
to which no handler subscribes, and no warning for a published topic
that has a subscriber.  (In the embedding `validate_graph` is a pure
function of the bus state, so it mutates nothing.) -/
theorem C9_validate_graph (b : Bus) (t : String) :
    (warnStr t ∈ b.validate_graph ↔
      ((t ≠ "" ∧ ∃ p ∈ b.subs, ∃ h ∈ p.2, h.publishes = t) ∧
        ¬ ∃ p ∈ b.subs, p.1 = t)) ∧
    (b.validate_graph).Nodup := by
  constructor
  · rw [Bus.validate_graph, List.mem_map]
    constructor
    · rintro ⟨d, hd, hw⟩
      obtain rfl := warnStr_inj hw
      rw [List.mem_filter] at hd
      have hp := (mem_pub_fold b.subs [] d).mp hd.1
      simp only [List.not_mem_nil, false_or] at hp
      obtain ⟨p, hpm, q, hqm, hq, hne⟩ := hp
      refine ⟨⟨hne, p, hpm, q, hqm, hq⟩, fun hsub => ?_⟩
      obtain ⟨r, hrm, hr⟩ := hsub
      have hmem : d ∈ subscribedList b :=
        (mem_sub_fold b.subs [] d).mpr (Or.inr ⟨r, hrm, hr⟩)
      have hc : (subscribedList b).contains d = true := List.elem_iff.mpr hmem
      have hd2 := hd.2
      rw [hc] at hd2
      simp at hd2
    · rintro ⟨⟨hne, p, hpm, q, hqm, hq⟩, hnsub⟩
      refine ⟨t, ?_, rfl⟩
      rw [List.mem_filter]
      refine ⟨(mem_pub_fold b.subs [] t).mpr (Or.inr ⟨p, hpm, q, hqm, hq, hne⟩), ?_⟩
      have hts : t ∉ subscribedList b := by
        intro hmem
        rcases (mem_sub_fold b.subs [] t).mp hmem with hx | ⟨r, hrm, hr⟩
        · simp at hx
        · exact hnsub ⟨r, hrm, hr⟩
      cases hct : (subscribedList b).contains t with
      | false => rfl
      | true => exact absurd (List.elem_iff.mp hct) hts
  · exact List.Nodup.map warnStr_inj
      (List.Nodup.filter _ (nodup_pub_fold b.subs [] List.nodup_nil))

/-- Handler from the spec example: subscribes to `"x"`, publishes `"y"`. -/
def handlerA : Handler :=
  { name := "A", subscribes_to := "x", publishes := "y", timeout := 30,
    execution_mode := "main", process := fun _ => ProcResult.nothing }

/-- Bus holding only `handlerA`. -/
def xyBus : Bus :=
  { subs := [("x", [handlerA])], queue := [], waiters := [], metrics := Metrics.empty,
    event_log := EventLog.new 10, error_callbacks := [], notified := [],
    default_timeout := 30 }

/-- C9 (witness): on the spec's example graph (`A` subscribes to `"x"`,
publishes `"y"`, nothing subscribes to `"y"`), the warning for `"y"` is
emitted and the warning for `"x"` is not. -/
theorem C9_witness :
    warnStr "y" ∈ xyBus.validate_graph ∧ warnStr "x" ∉ xyBus.validate_graph := by
  constructor
  · exact (C9_validate_graph xyBus "y").1.mpr
      ⟨⟨by decide, ("x", [handlerA]), List.mem_singleton.mpr rfl, handlerA,
        List.mem_singleton.mpr rfl, rfl⟩,
       by rintro ⟨p, hp, hx⟩; rw [List.mem_singleton.mp hp] at hx; exact absurd hx (by decide)⟩
  · intro hmem
    have h := (C9_validate_graph xyBus "x").1.mp hmem
    obtain ⟨⟨hne, p, hp, q, hq, hpub⟩, hnsub⟩ := h
    rw [List.mem_singleton.mp hp] at hq
    rw [List.mem_singleton.mp hq] at hpub
    exact absurd hpub (by decide)

end Khorsyio
